import Mathlib

/-!
# Verification of the ecdsa-node transaction pipeline

A shallow embedding of the server's transaction-submission pipeline
(`src/server/src/index.ts`, `src/server/src/crypto.ts`, and the type
declarations in `src/server/src/types.ts`), together with theorems about
the claims of the specification.

Modelling conventions:

* JavaScript strings are modelled as `List Char` (`JStr`); the strings the
  pipeline manipulates are ASCII (hex digits, addresses).
* JavaScript numbers are modelled as `ℚ`: the pipeline only tests
  integrality (`Number.isInteger`), ordering and performs exact
  additions/subtractions on values bounded far below 2^53, where IEEE
  doubles behave exactly like the corresponding rationals.
* JavaScript objects used as dictionaries (`balances`, `nonces`) are
  modelled as association lists `List (JStr × ℚ)` with JavaScript
  semantics: lookup of the first matching key, in-place update of an
  existing key, append of a fresh key.
* Library functions that the server imports (`keccak_256`,
  `JSON.stringify` composed with `TextEncoder`, and the elliptic-curve
  recovery core of `@noble/secp256k1`) are uninterpreted parameters,
  collected in the structure `Ext`.  Everything written in the repository
  itself (length checks, hex codecs as specified by `@noble`'s
  `bytesToHex`/`hexToBytes`, the check pipeline, the state mutations) is
  modelled concretely.
* Thrown JavaScript `Error`s are modelled as `Except` values; the
  top-level `try/catch` of the `/send` handler corresponds to the
  `.error` branch producing an `INTERNAL_ERROR` response.
* Human-readable `message` strings of responses are not modelled; the
  `code`, HTTP status and structured `details` are.
-/

namespace EcdsaNode

/-- JavaScript strings, modelled as lists of characters. -/
abbrev JStr := List Char

/-- ASCII lower-casing of one character (`String.prototype.toLowerCase`
restricted to the ASCII range, which is all the pipeline ever feeds it). -/
def asciiLowerChar (c : Char) : Char :=
  if 'A' ≤ c ∧ c ≤ 'Z' then Char.ofNat (c.toNat + 32) else c

/-- `s.toLowerCase()` on ASCII strings. -/
def asciiLower (s : JStr) : JStr := s.map asciiLowerChar

/-- A hexadecimal digit of either case (the character class of the
regular expression in `isValidAddress`). -/
def isHexChar (c : Char) : Bool :=
  ('0' ≤ c && c ≤ '9') || ('a' ≤ c && c ≤ 'f') || ('A' ≤ c && c ≤ 'F')

/-- A lowercase hexadecimal digit, as produced by `bytesToHex`. -/
def isLowerHexChar (c : Char) : Bool :=
  ('0' ≤ c && c ≤ '9') || ('a' ≤ c && c ≤ 'f')

/-- The lowercase hex digit for a nibble. -/
def hexDigitChar (n : Nat) : Char :=
  if n < 10 then Char.ofNat ('0'.toNat + n) else Char.ofNat ('a'.toNat + (n - 10))

/-- `@noble/secp256k1`'s `etc.bytesToHex`: two lowercase hex digits per
byte, no prefix. -/
def bytesToHex (bs : List Nat) : JStr :=
  bs.flatMap (fun b => [hexDigitChar (b / 16 % 16), hexDigitChar (b % 16)])

/-- Numeric value of a hex digit of either case. -/
def hexCharVal (c : Char) : Option Nat :=
  if '0' ≤ c ∧ c ≤ '9' then some (c.toNat - '0'.toNat)
  else if 'a' ≤ c ∧ c ≤ 'f' then some (c.toNat - 'a'.toNat + 10)
  else if 'A' ≤ c ∧ c ≤ 'F' then some (c.toNat - 'A'.toNat + 10)
  else none

/-- `@noble/secp256k1`'s `etc.hexToBytes`: fails (throws) on odd length
or a non-hex character. -/
def hexToBytes : List Char → Option (List Nat)
  | [] => some []
  | [_] => none
  | c1 :: c2 :: rest =>
    match hexCharVal c1, hexCharVal c2, hexToBytes rest with
    | some h, some l, some bs => some ((h * 16 + l) :: bs)
    | _, _, _ => none

/-- JavaScript `TypedArray.prototype.slice(start)` with a single (possibly
negative) start index. -/
def jsSliceFrom (l : List Nat) (i : Int) : List Nat :=
  if i < 0 then l.drop (l.length - (-i).toNat) else l.drop i.toNat

/-! ## JavaScript dictionary objects -/

/-- Property lookup on an object: the value of the first matching key. -/
def objGet (m : List (JStr × ℚ)) (k : JStr) : Option ℚ :=
  match m with
  | [] => none
  | p :: rest => if p.1 = k then some p.2 else objGet rest k

/-- `obj[k] || 0`: lookup defaulting to `0` (for rationals, the falsy
values of a lookup are exactly `undefined` and `0`). -/
def objGetD (m : List (JStr × ℚ)) (k : JStr) : ℚ :=
  (objGet m k).getD 0

/-- Property assignment `obj[k] = v`: update the first matching key in
place, or append a fresh key. -/
def objSet (m : List (JStr × ℚ)) (k : JStr) (v : ℚ) : List (JStr × ℚ) :=
  match m with
  | [] => [(k, v)]
  | p :: rest => if p.1 = k then (k, v) :: rest else p :: objSet rest k v

/-! ## Data model (`src/server/src/types.ts`) -/

/-- The `ErrorCode` enum of `types.ts`.  Note: the enum has no
missing-fields member. -/
inductive ErrorCode
  | INVALID_SIGNATURE
  | INSUFFICIENT_FUNDS
  | INVALID_HASH
  | INVALID_ADDRESS
  | INVALID_NONCE
  | INVALID_AMOUNT
  | SELF_TRANSFER
  | INTERNAL_ERROR
deriving DecidableEq, Repr

/-- The failures `recoverPublicKeyFromSignature` can throw (modelled as
tagged values rather than `Error` message strings). -/
inductive RecoveryErr
  | hexDecodeFailed
  | invalidLength (got : Nat)
  | recoveryFailed
deriving DecidableEq, Repr

/-- The structured `details` payloads attached to error responses. -/
inductive Details
  | none
  | expectedReceivedNonce (expected received : ℚ)
  | expectedRecovered (expected recovered : JStr)
  | requiredAvailable (required available : ℚ)
  | caughtError (e : RecoveryErr)
deriving DecidableEq, Repr

/-- An error response: HTTP status, `ErrorCode`, structured details
(the human-readable `message` string is not modelled). -/
structure ErrorResponse where
  status : Nat
  code : ErrorCode
  details : Details
deriving DecidableEq, Repr

/-- The success payload sent at the end of `/send`
(`res.send({ balance, newNonce, recipient: { address, newBalance } })`). -/
structure SuccessResponse where
  balance : ℚ
  newNonce : ℚ
  recipientAddress : JStr
  recipientNewBalance : ℚ
deriving DecidableEq, Repr

/-- A JSON-ish value, used to record the exact key layout of the success
object literal. -/
inductive JVal
  | num (q : ℚ)
  | str (s : JStr)
  | obj (fields : List (String × JVal))

/-- The object literal of `index.ts` lines 280–287, with its actual keys. -/
def successJson (r : SuccessResponse) : JVal :=
  .obj [("balance", .num r.balance),
        ("newNonce", .num r.newNonce),
        ("recipient", .obj [("address", .str r.recipientAddress),
                            ("newBalance", .num r.recipientNewBalance)])]

/-- Key lookup in a `JVal` object. -/
def jLookup (v : JVal) (k : String) : Option JVal :=
  match v with
  | .obj fields => (fields.find? (fun p => p.1 == k)).map (·.2)
  | _ => Option.none

/-- `TransactionMessage` of `types.ts` (numbers as `ℚ`). -/
structure TransactionMessage where
  sender : JStr
  recipient : JStr
  amount : ℚ
  nonce : ℚ
  timestamp : Option ℚ := Option.none
deriving DecidableEq, Repr

/-- `SendRequestBody` of `types.ts`; each field is optional at the
transport boundary (`undefined` is `Option.none`). -/
structure SendRequestBody where
  message : Option TransactionMessage
  signature : Option JStr
  messageHash : Option JStr
deriving DecidableEq, Repr

/-- The shared server state: `balances` and `nonces` dictionaries. -/
structure ServerState where
  balances : List (JStr × ℚ)
  nonces : List (JStr × ℚ)
deriving DecidableEq, Repr

/-- The imported library functions, left uninterpreted:
`kec` is `keccak_256` on byte arrays; `encodeMessage` is
`TextEncoder.encode(JSON.stringify(message))`; `recover` is the
elliptic-curve recovery core of `@noble/secp256k1` (already composed
with the compressed-to-uncompressed point conversion), returning `none`
when the library throws (invalid point, out-of-range scalars, bad
recovery id). -/
structure Ext where
  kec : List Nat → List Nat
  encodeMessage : TransactionMessage → List Nat
  recover : (signatureBytes messageHashBytes : List Nat) → Option (List Nat)

/-! ## Validation helpers (`index.ts`) -/

/-- `isValidAddress` of `index.ts`: `0x` followed by the regular
expression `[0-9a-fA-F]{40}` anchored at both ends. -/
def isValidAddress (address : JStr) : Bool :=
  match address with
  | '0' :: 'x' :: clean => clean.length == 40 && clean.all isHexChar
  | _ => false

/-- `isValidAmount` of `index.ts`:
`Number.isInteger(amount) && amount > 0 && amount <= 1000000`. -/
def isValidAmount (amount : ℚ) : Bool :=
  amount.den == 1 && decide (0 < amount) && decide (amount ≤ 1000000)

/-- `setInitialBalance` of `index.ts`: `if (!state.balances[address])
state.balances[address] = 0` — assigns when the lookup is falsy
(absent or zero). -/
def setInitialBalance (m : List (JStr × ℚ)) (address : JStr) : List (JStr × ℚ) :=
  if (objGet m address).getD 0 = 0 then objSet m address 0 else m

/-! ## Crypto layer (`crypto.ts`) -/

/-- `recoverPublicKeyFromSignature` of `crypto.ts`: hex-decode the inputs,
reject a signature that is not exactly 65 bytes, then run library
recovery; any failure is a thrown error. -/
def recoverPublicKeyFromSignature (ext : Ext) (messageHash signature : JStr) :
    Except RecoveryErr (List Nat) :=
  match hexToBytes messageHash, hexToBytes signature with
  | some mhBytes, some sigBytes =>
    if sigBytes.length ≠ 65 then .error (.invalidLength sigBytes.length)
    else
      match ext.recover sigBytes mhBytes with
      | some pk => .ok pk
      | Option.none => .error .recoveryFailed
  | _, _ => .error .hexDecodeFailed

/-- `publicKeyToAddress` of `crypto.ts`: drop the leading byte with
`slice(1)`, Keccak-256 the rest, keep `slice(-20)` of the digest,
hex-encode with a `0x` prefix. -/
def publicKeyToAddress (ext : Ext) (publicKey : List Nat) : JStr :=
  '0' :: 'x' :: bytesToHex (jsSliceFrom (ext.kec (jsSliceFrom publicKey 1)) (-20))

/-- `verifySignatureAndGetAddress` of `crypto.ts`. -/
def verifySignatureAndGetAddress (ext : Ext) (messageHash signature : JStr) :
    Except RecoveryErr JStr :=
  (recoverPublicKeyFromSignature ext messageHash signature).map (publicKeyToAddress ext)

/-! ## The `/send` pipeline (`index.ts` lines 142–297) -/

/-- The response to a request with a missing field: `index.ts` lines
147–154 send HTTP 400 with `ErrorCode.INVALID_SIGNATURE`. -/
def missingFieldsResponse : ErrorResponse :=
  ⟨400, .INVALID_SIGNATURE, .none⟩

/-- The body of the `/send` handler after destructuring, given that all
three fields were supplied.  Returns the response and the server state
after the request. -/
def processSend (ext : Ext) (st : ServerState) (msg : TransactionMessage)
    (signature messageHash : JStr) :
    Except ErrorResponse SuccessResponse × ServerState :=
  if isValidAddress msg.sender = false then
    (.error ⟨400, .INVALID_ADDRESS, .none⟩, st)
  else if isValidAddress msg.recipient = false then
    (.error ⟨400, .INVALID_ADDRESS, .none⟩, st)
  else if asciiLower msg.sender = asciiLower msg.recipient then
    (.error ⟨400, .SELF_TRANSFER, .none⟩, st)
  else if isValidAmount msg.amount = false then
    (.error ⟨400, .INVALID_AMOUNT, .none⟩, st)
  else
    let currentNonce := objGetD st.nonces msg.sender
    if msg.nonce ≠ currentNonce + 1 then
      (.error ⟨400, .INVALID_NONCE, .expectedReceivedNonce (currentNonce + 1) msg.nonce⟩, st)
    else
      let computedHash := bytesToHex (ext.kec (ext.encodeMessage msg))
      if computedHash ≠ messageHash then
        (.error ⟨400, .INVALID_HASH, .none⟩, st)
      else
        match verifySignatureAndGetAddress ext messageHash signature with
        | .error e =>
          (.error ⟨500, .INTERNAL_ERROR, .caughtError e⟩, st)
        | .ok recoveredAddress =>
          if asciiLower recoveredAddress ≠ asciiLower msg.sender then
            (.error ⟨401, .INVALID_SIGNATURE,
              .expectedRecovered msg.sender recoveredAddress⟩, st)
          else
            let balances1 := setInitialBalance (setInitialBalance st.balances msg.sender)
              msg.recipient
            if objGetD balances1 msg.sender < msg.amount then
              (.error ⟨400, .INSUFFICIENT_FUNDS,
                .requiredAvailable msg.amount (objGetD balances1 msg.sender)⟩,
               ⟨balances1, st.nonces⟩)
            else
              let balances2 := objSet balances1 msg.sender
                (objGetD balances1 msg.sender - msg.amount)
              let balances3 := objSet balances2 msg.recipient
                (objGetD balances2 msg.recipient + msg.amount)
              let nonces2 := objSet st.nonces msg.sender msg.nonce
              (.ok ⟨objGetD balances3 msg.sender, msg.nonce, msg.recipient,
                    objGetD balances3 msg.recipient⟩,
               ⟨balances3, nonces2⟩)

/-- The `/send` handler: presence check
(`!message || !signature || !messageHash`, where an empty string is
falsy), then the validation pipeline. -/
def submitTransaction (ext : Ext) (st : ServerState) (body : SendRequestBody) :
    Except ErrorResponse SuccessResponse × ServerState :=
  match body.message, body.signature, body.messageHash with
  | some msg, some sig, some mh =>
    if sig.isEmpty || mh.isEmpty then (.error missingFieldsResponse, st)
    else processSend ext st msg sig mh
  | _, _, _ => (.error missingFieldsResponse, st)

/-- The `ErrorCode` of a response, if it is an error. -/
def respCode (r : Except ErrorResponse SuccessResponse) : Option ErrorCode :=
  match r with
  | .error e => some e.code
  | .ok _ => Option.none

/-! ## Spec-side definitions (for refinement comparisons) -/

/-- The low-order `n` bytes of a byte string. -/
def lastBytes (l : List Nat) (n : Nat) : List Nat :=
  l.drop (l.length - n)

/-- Address derivation following the specification's words: "drop the
1-byte prefix, hash the remaining 64 bytes with the domain's standard
hash function, take the low-order 20 bytes, hex-encode lowercase with
`0x` prefix" — to be compared with `publicKeyToAddress`. -/
def toAddressSpec (kec : List Nat → List Nat) (publicKey : List Nat) : JStr :=
  '0' :: 'x' :: bytesToHex (lastBytes (kec (List.take 64 (List.drop 1 publicKey))) 20)

/-- Strip one optional `0x` prefix (used to express "the messageHash
denotes the same bytes as the computed digest"). -/
def stripHexPfx (s : JStr) : JStr :=
  match s with
  | '0' :: 'x' :: rest => rest
  | s => s

/-! ## Concrete scenario data

A concrete instantiation of the uninterpreted library functions and a
few request bodies, used for the closed concrete theorems.  `kecC` is a
constant function: the theorems that use it only exercise the code the
repository itself contains. -/

/-- Concrete external functions: a constant hash, so that the digest of
any message is `0xaa…aa` and any 65-byte public key hashes to an
address of 40 `a`s. -/
def extC : Ext :=
  { kec := fun _ => List.replicate 32 170,
    encodeMessage := fun _ => [],
    recover := fun _ _ => some (List.replicate 65 4) }

/-- The sender address `0xaaa…a` (40 `a`s), which `extC` recovery yields. -/
def senderA : JStr := '0' :: 'x' :: List.replicate 40 'a'

/-- The recipient address `0xbbb…b`. -/
def recipB : JStr := '0' :: 'x' :: List.replicate 40 'b'

/-- A signature that hex-decodes to 65 bytes. -/
def sigC : JStr := bytesToHex (List.replicate 65 4)

/-- The lowercase rendering of the digest `extC.kec` produces. -/
def mhC : JStr := List.replicate 64 'a'

/-- Scenario A of the spec: sender (balance 100, nonce 0) sends 30 to
the recipient (balance 50) with nonce 1. -/
def stScenA : ServerState := ⟨[(senderA, 100), (recipB, 50)], []⟩

/-- The state after scenario A commits. -/
def stScenA' : ServerState := ⟨[(senderA, 70), (recipB, 80)], [(senderA, 1)]⟩

/-- The scenario-A request body. -/
def bodyScenA : SendRequestBody :=
  { message := some { sender := senderA, recipient := recipB, amount := 30, nonce := 1 },
    signature := some sigC,
    messageHash := some mhC }

/-- A fresh-accounts transfer attempt: both parties unknown to the
ledger, amount 1. -/
def bodyFresh : SendRequestBody :=
  { message := some { sender := senderA, recipient := recipB, amount := 1, nonce := 1 },
    signature := some sigC,
    messageHash := some mhC }

/-- A request with a one-byte signature (`"ab"`), which the repository's
own 65-byte length check rejects by throwing. -/
def bodyShortSig : SendRequestBody :=
  { message := some { sender := senderA, recipient := recipB, amount := 1, nonce := 1 },
    signature := some ['a', 'b'],
    messageHash := some mhC }

/-- A request whose `messageHash` is the uppercase rendering of the
correct digest. -/
def bodyUpperHash : SendRequestBody :=
  { message := some { sender := senderA, recipient := recipB, amount := 1, nonce := 1 },
    signature := some sigC,
    messageHash := some (List.replicate 64 'A') }

/-- A request body with no `message` field. -/
def bodyNoMessage : SendRequestBody :=
  { message := Option.none, signature := some sigC, messageHash := some mhC }

/-- An empty ledger. -/
def stEmpty : ServerState := ⟨[], []⟩

deriving instance DecidableEq for Except

/-! ## Dictionary lemmas -/

theorem objGet_objSet_self (m : List (JStr × ℚ)) (k : JStr) (v : ℚ) :
    objGet (objSet m k v) k = some v := by
  induction m with
  | nil => simp [objGet, objSet]
  | cons p rest ih =>
    by_cases h : p.1 = k
    · simp [objGet, objSet, h]
    · simp [objGet, objSet, h, ih]

theorem objGet_objSet_ne (m : List (JStr × ℚ)) (k a : JStr) (v : ℚ) (h : a ≠ k) :
    objGet (objSet m k v) a = objGet m a := by
  induction m with
  | nil => simp [objGet, objSet, h.symm]
  | cons p rest ih =>
    obtain ⟨pk, pv⟩ := p
    by_cases hp : pk = k
    · subst hp
      simp [objGet, objSet, h.symm]
    · simp only [objSet, if_neg hp]
      by_cases hpa : pk = a
      · simp [objGet, hpa]
      · simp [objGet, hpa, ih]

theorem objGetD_objSet_self (m : List (JStr × ℚ)) (k : JStr) (v : ℚ) :
    objGetD (objSet m k v) k = v := by
  simp [objGetD, objGet_objSet_self]

theorem objGetD_objSet_ne (m : List (JStr × ℚ)) (k a : JStr) (v : ℚ) (h : a ≠ k) :
    objGetD (objSet m k v) a = objGetD m a := by
  simp [objGetD, objGet_objSet_ne m k a v h]

/-- `setInitialBalance` never changes the value any lookup-with-default
observes: it only materialises a default. -/
theorem objGetD_setInitialBalance (m : List (JStr × ℚ)) (k a : JStr) :
    objGetD (setInitialBalance m k) a = objGetD m a := by
  unfold setInitialBalance
  by_cases hf : (objGet m k).getD 0 = 0
  · simp only [hf, if_pos]
    by_cases hak : a = k
    · subst hak
      rw [objGetD_objSet_self]
      simpa [objGetD] using hf.symm
    · rw [objGetD_objSet_ne m k a 0 hak]
  · simp [hf]

/-! ## Hex lemmas -/

theorem isLowerHexChar_hexDigitChar : ∀ n : Nat, n < 16 → isLowerHexChar (hexDigitChar n) = true := by
  decide

/-- Every character `bytesToHex` produces is a lowercase hex digit:
the rendering the hash check compares against is always lowercase. -/
theorem bytesToHex_all_lower (bs : List Nat) :
    (bytesToHex bs).all isLowerHexChar = true := by
  induction bs with
  | nil => rfl
  | cons b rest ih =>
    simp only [bytesToHex, List.flatMap_cons, List.all_append, List.all_cons, List.all_nil,
      Bool.and_true, Bool.and_eq_true]
    refine ⟨⟨isLowerHexChar_hexDigitChar _ (Nat.mod_lt _ (by omega)),
      isLowerHexChar_hexDigitChar _ (Nat.mod_lt _ (by omega))⟩, ?_⟩
    simpa [bytesToHex] using ih

theorem isEmpty_false_of_ne_nil {α : Type} {l : List α} (h : l ≠ []) : l.isEmpty = false := by
  cases l with
  | nil => exact absurd rfl h
  | cons a t => rfl

/-! ## Stage lemmas for the `/send` pipeline -/

theorem submit_missing (ext : Ext) (st : ServerState) (body : SendRequestBody)
    (h : body.message = Option.none ∨ body.signature = Option.none ∨
      body.messageHash = Option.none ∨ body.signature = some [] ∨
      body.messageHash = some []) :
    submitTransaction ext st body = (.error missingFieldsResponse, st) := by
  obtain ⟨om, os, omh⟩ := body
  simp only at h
  rcases h with h | h | h | h | h
  · subst h; cases os <;> cases omh <;> simp [submitTransaction]
  · subst h; cases om <;> cases omh <;> simp [submitTransaction]
  · subst h; cases om <;> cases os <;> simp [submitTransaction]
  · subst h; cases om <;> cases omh <;> simp [submitTransaction]
  · subst h; cases om <;> cases os <;> simp [submitTransaction]

theorem submit_bad_sender (ext : Ext) (st : ServerState)
    (msg : TransactionMessage) (sig mh : JStr)
    (hsig : sig ≠ []) (hmh : mh ≠ [])
    (hs : isValidAddress msg.sender = false) :
    submitTransaction ext st ⟨some msg, some sig, some mh⟩ =
      (.error ⟨400, .INVALID_ADDRESS, .none⟩, st) := by
  unfold submitTransaction
  simp only [isEmpty_false_of_ne_nil hsig, isEmpty_false_of_ne_nil hmh, Bool.or_self,
    Bool.false_or, if_neg Bool.false_ne_true]
  unfold processSend
  simp [hs]

theorem submit_bad_recipient (ext : Ext) (st : ServerState)
    (msg : TransactionMessage) (sig mh : JStr)
    (hsig : sig ≠ []) (hmh : mh ≠ [])
    (hs : isValidAddress msg.sender = true)
    (hr : isValidAddress msg.recipient = false) :
    submitTransaction ext st ⟨some msg, some sig, some mh⟩ =
      (.error ⟨400, .INVALID_ADDRESS, .none⟩, st) := by
  unfold submitTransaction
  simp only [isEmpty_false_of_ne_nil hsig, isEmpty_false_of_ne_nil hmh, Bool.or_self,
    Bool.false_or, if_neg Bool.false_ne_true]
  unfold processSend
  simp [hs, hr]

theorem submit_self (ext : Ext) (st : ServerState)
    (msg : TransactionMessage) (sig mh : JStr)
    (hsig : sig ≠ []) (hmh : mh ≠ [])
    (hs : isValidAddress msg.sender = true)
    (hr : isValidAddress msg.recipient = true)
    (hself : asciiLower msg.sender = asciiLower msg.recipient) :
    submitTransaction ext st ⟨some msg, some sig, some mh⟩ =
      (.error ⟨400, .SELF_TRANSFER, .none⟩, st) := by
  unfold submitTransaction
  simp only [isEmpty_false_of_ne_nil hsig, isEmpty_false_of_ne_nil hmh, Bool.or_self,
    Bool.false_or, if_neg Bool.false_ne_true]
  unfold processSend
  simp [hs, hr, hself]

theorem submit_bad_amount (ext : Ext) (st : ServerState)
    (msg : TransactionMessage) (sig mh : JStr)
    (hsig : sig ≠ []) (hmh : mh ≠ [])
    (hs : isValidAddress msg.sender = true)
    (hr : isValidAddress msg.recipient = true)
    (hself : asciiLower msg.sender ≠ asciiLower msg.recipient)
    (ham : isValidAmount msg.amount = false) :
    submitTransaction ext st ⟨some msg, some sig, some mh⟩ =
      (.error ⟨400, .INVALID_AMOUNT, .none⟩, st) := by
  unfold submitTransaction
  simp only [isEmpty_false_of_ne_nil hsig, isEmpty_false_of_ne_nil hmh, Bool.or_self,
    Bool.false_or, if_neg Bool.false_ne_true]
  unfold processSend
  simp [hs, hr, hself, ham]

theorem submit_bad_nonce (ext : Ext) (st : ServerState)
    (msg : TransactionMessage) (sig mh : JStr)
    (hsig : sig ≠ []) (hmh : mh ≠ [])
    (hs : isValidAddress msg.sender = true)
    (hr : isValidAddress msg.recipient = true)
    (hself : asciiLower msg.sender ≠ asciiLower msg.recipient)
    (ham : isValidAmount msg.amount = true)
    (hn : msg.nonce ≠ objGetD st.nonces msg.sender + 1) :
    submitTransaction ext st ⟨some msg, some sig, some mh⟩ =
      (.error ⟨400, .INVALID_NONCE,
        .expectedReceivedNonce (objGetD st.nonces msg.sender + 1) msg.nonce⟩, st) := by
  unfold submitTransaction
  simp only [isEmpty_false_of_ne_nil hsig, isEmpty_false_of_ne_nil hmh, Bool.or_self,
    Bool.false_or, if_neg Bool.false_ne_true]
  unfold processSend
  simp [hs, hr, hself, ham, hn]

theorem submit_bad_hash (ext : Ext) (st : ServerState)
    (msg : TransactionMessage) (sig mh : JStr)
    (hsig : sig ≠ []) (hmh : mh ≠ [])
    (hs : isValidAddress msg.sender = true)
    (hr : isValidAddress msg.recipient = true)
    (hself : asciiLower msg.sender ≠ asciiLower msg.recipient)
    (ham : isValidAmount msg.amount = true)
    (hn : msg.nonce = objGetD st.nonces msg.sender + 1)
    (hhash : bytesToHex (ext.kec (ext.encodeMessage msg)) ≠ mh) :
    submitTransaction ext st ⟨some msg, some sig, some mh⟩ =
      (.error ⟨400, .INVALID_HASH, .none⟩, st) := by
  unfold submitTransaction
  simp only [isEmpty_false_of_ne_nil hsig, isEmpty_false_of_ne_nil hmh, Bool.or_self,
    Bool.false_or, if_neg Bool.false_ne_true]
  unfold processSend
  simp [hs, hr, hself, ham, hn, hhash]

theorem submit_recovery_error (ext : Ext) (st : ServerState)
    (msg : TransactionMessage) (sig mh : JStr) (e : RecoveryErr)
    (hsig : sig ≠ []) (hmh : mh ≠ [])
    (hs : isValidAddress msg.sender = true)
    (hr : isValidAddress msg.recipient = true)
    (hself : asciiLower msg.sender ≠ asciiLower msg.recipient)
    (ham : isValidAmount msg.amount = true)
    (hn : msg.nonce = objGetD st.nonces msg.sender + 1)
    (hhash : bytesToHex (ext.kec (ext.encodeMessage msg)) = mh)
    (hv : verifySignatureAndGetAddress ext mh sig = .error e) :
    submitTransaction ext st ⟨some msg, some sig, some mh⟩ =
      (.error ⟨500, .INTERNAL_ERROR, .caughtError e⟩, st) := by
  unfold submitTransaction
  simp only [isEmpty_false_of_ne_nil hsig, isEmpty_false_of_ne_nil hmh, Bool.or_self,
    Bool.false_or, if_neg Bool.false_ne_true]
  unfold processSend
  simp [hs, hr, hself, ham, hn, hhash, hv]

theorem submit_addr_mismatch (ext : Ext) (st : ServerState)
    (msg : TransactionMessage) (sig mh addr : JStr)
    (hsig : sig ≠ []) (hmh : mh ≠ [])
    (hs : isValidAddress msg.sender = true)
    (hr : isValidAddress msg.recipient = true)
    (hself : asciiLower msg.sender ≠ asciiLower msg.recipient)
    (ham : isValidAmount msg.amount = true)
    (hn : msg.nonce = objGetD st.nonces msg.sender + 1)
    (hhash : bytesToHex (ext.kec (ext.encodeMessage msg)) = mh)
    (hv : verifySignatureAndGetAddress ext mh sig = .ok addr)
    (haddr : asciiLower addr ≠ asciiLower msg.sender) :
    submitTransaction ext st ⟨some msg, some sig, some mh⟩ =
      (.error ⟨401, .INVALID_SIGNATURE, .expectedRecovered msg.sender addr⟩, st) := by
  unfold submitTransaction
  simp only [isEmpty_false_of_ne_nil hsig, isEmpty_false_of_ne_nil hmh, Bool.or_self,
    Bool.false_or, if_neg Bool.false_ne_true]
  unfold processSend
  simp [hs, hr, hself, ham, hn, hhash, hv, haddr]

theorem submit_no_funds (ext : Ext) (st : ServerState)
    (msg : TransactionMessage) (sig mh addr : JStr)
    (hsig : sig ≠ []) (hmh : mh ≠ [])
    (hs : isValidAddress msg.sender = true)
    (hr : isValidAddress msg.recipient = true)
    (hself : asciiLower msg.sender ≠ asciiLower msg.recipient)
    (ham : isValidAmount msg.amount = true)
    (hn : msg.nonce = objGetD st.nonces msg.sender + 1)
    (hhash : bytesToHex (ext.kec (ext.encodeMessage msg)) = mh)
    (hv : verifySignatureAndGetAddress ext mh sig = .ok addr)
    (haddr : asciiLower addr = asciiLower msg.sender)
    (hfunds : objGetD st.balances msg.sender < msg.amount) :
    submitTransaction ext st ⟨some msg, some sig, some mh⟩ =
      (.error ⟨400, .INSUFFICIENT_FUNDS,
        .requiredAvailable msg.amount (objGetD st.balances msg.sender)⟩,
       ⟨setInitialBalance (setInitialBalance st.balances msg.sender) msg.recipient,
        st.nonces⟩) := by
  unfold submitTransaction
  simp only [isEmpty_false_of_ne_nil hsig, isEmpty_false_of_ne_nil hmh, Bool.or_self,
    Bool.false_or, if_neg Bool.false_ne_true]
  unfold processSend
  simp [hs, hr, hself, ham, hn, hhash, hv, haddr, objGetD_setInitialBalance, hfunds]

theorem submit_all_pass (ext : Ext) (st : ServerState)
    (msg : TransactionMessage) (sig mh addr : JStr)
    (hsig : sig ≠ []) (hmh : mh ≠ [])
    (hs : isValidAddress msg.sender = true)
    (hr : isValidAddress msg.recipient = true)
    (hself : asciiLower msg.sender ≠ asciiLower msg.recipient)
    (ham : isValidAmount msg.amount = true)
    (hn : msg.nonce = objGetD st.nonces msg.sender + 1)
    (hhash : bytesToHex (ext.kec (ext.encodeMessage msg)) = mh)
    (hv : verifySignatureAndGetAddress ext mh sig = .ok addr)
    (haddr : asciiLower addr = asciiLower msg.sender)
    (hfunds : ¬ (objGetD st.balances msg.sender < msg.amount)) :
    submitTransaction ext st ⟨some msg, some sig, some mh⟩ =
      (.ok ⟨objGetD st.balances msg.sender - msg.amount, msg.nonce, msg.recipient,
            objGetD st.balances msg.recipient + msg.amount⟩,
       ⟨objSet (objSet (setInitialBalance (setInitialBalance st.balances msg.sender)
              msg.recipient)
            msg.sender (objGetD st.balances msg.sender - msg.amount))
          msg.recipient (objGetD st.balances msg.recipient + msg.amount),
        objSet st.nonces msg.sender msg.nonce⟩) := by
  have hner : msg.sender ≠ msg.recipient := fun e => hself (congrArg asciiLower e)
  unfold submitTransaction
  simp only [isEmpty_false_of_ne_nil hsig, isEmpty_false_of_ne_nil hmh, Bool.or_self,
    Bool.false_or, if_neg Bool.false_ne_true]
  unfold processSend
  simp only [hs, hr, hself, ham, hn, hhash, hv, haddr, objGetD_setInitialBalance]
  simp [if_neg hfunds, objGetD_objSet_self, objGetD_objSet_ne _ _ _ _ hner,
    objGetD_objSet_ne _ _ _ _ (Ne.symm hner), objGetD_setInitialBalance]


theorem submit_ok_inv (ext : Ext) (st : ServerState) (body : SendRequestBody)
    (r : SuccessResponse) (st' : ServerState)
    (h : submitTransaction ext st body = (.ok r, st')) :
    ∃ (msg : TransactionMessage) (sig mh addr : JStr),
      body = ⟨some msg, some sig, some mh⟩ ∧
      sig ≠ [] ∧ mh ≠ [] ∧
      isValidAddress msg.sender = true ∧
      isValidAddress msg.recipient = true ∧
      asciiLower msg.sender ≠ asciiLower msg.recipient ∧
      isValidAmount msg.amount = true ∧
      msg.nonce = objGetD st.nonces msg.sender + 1 ∧
      bytesToHex (ext.kec (ext.encodeMessage msg)) = mh ∧
      verifySignatureAndGetAddress ext mh sig = .ok addr ∧
      asciiLower addr = asciiLower msg.sender ∧
      ¬ (objGetD st.balances msg.sender < msg.amount) ∧
      r = ⟨objGetD st.balances msg.sender - msg.amount, msg.nonce, msg.recipient,
           objGetD st.balances msg.recipient + msg.amount⟩ ∧
      st' = ⟨objSet (objSet (setInitialBalance (setInitialBalance st.balances msg.sender)
                msg.recipient)
              msg.sender (objGetD st.balances msg.sender - msg.amount))
            msg.recipient (objGetD st.balances msg.recipient + msg.amount),
          objSet st.nonces msg.sender msg.nonce⟩ := by
  obtain ⟨om, os, omh⟩ := body
  cases om with
  | none => simp [submitTransaction] at h
  | some msg =>
  cases os with
  | none => simp [submitTransaction] at h
  | some sig =>
  cases omh with
  | none => simp [submitTransaction] at h
  | some mh =>
  have hsig : sig ≠ [] := by
    intro he
    subst he
    simp [submitTransaction] at h
  have hmh : mh ≠ [] := by
    intro he
    subst he
    simp [submitTransaction] at h
  have hs : isValidAddress msg.sender = true := by
    by_contra hc
    rw [submit_bad_sender ext st msg sig mh hsig hmh (by simpa using hc)] at h
    simp at h
  have hr : isValidAddress msg.recipient = true := by
    by_contra hc
    rw [submit_bad_recipient ext st msg sig mh hsig hmh hs (by simpa using hc)] at h
    simp at h
  have hself : asciiLower msg.sender ≠ asciiLower msg.recipient := by
    intro hc
    rw [submit_self ext st msg sig mh hsig hmh hs hr hc] at h
    simp at h
  have ham : isValidAmount msg.amount = true := by
    by_contra hc
    rw [submit_bad_amount ext st msg sig mh hsig hmh hs hr hself (by simpa using hc)] at h
    simp at h
  have hn : msg.nonce = objGetD st.nonces msg.sender + 1 := by
    by_contra hc
    rw [submit_bad_nonce ext st msg sig mh hsig hmh hs hr hself ham hc] at h
    simp at h
  have hhash : bytesToHex (ext.kec (ext.encodeMessage msg)) = mh := by
    by_contra hc
    rw [submit_bad_hash ext st msg sig mh hsig hmh hs hr hself ham hn hc] at h
    simp at h
  cases hcv : verifySignatureAndGetAddress ext mh sig with
  | error e =>
    rw [submit_recovery_error ext st msg sig mh e hsig hmh hs hr hself ham hn hhash hcv] at h
    simp at h
  | ok addr =>
  have haddr : asciiLower addr = asciiLower msg.sender := by
    by_contra hc
    rw [submit_addr_mismatch ext st msg sig mh addr hsig hmh hs hr hself ham hn hhash hcv hc] at h
    simp at h
  have hfunds : ¬ (objGetD st.balances msg.sender < msg.amount) := by
    intro hc
    rw [submit_no_funds ext st msg sig mh addr hsig hmh hs hr hself ham hn hhash hcv haddr hc] at h
    simp at h
  rw [submit_all_pass ext st msg sig mh addr hsig hmh hs hr hself ham hn hhash hcv haddr hfunds] at h
  simp only [Prod.mk.injEq, Except.ok.injEq] at h
  exact ⟨msg, sig, mh, addr, rfl, hsig, hmh, hs, hr, hself, ham, hn, hhash, hcv, haddr, hfunds,
    h.1.symm, h.2.symm⟩


theorem code_not_amount (ext : Ext) (st : ServerState)
    (msg : TransactionMessage) (sig mh : JStr)
    (hsig : sig ≠ []) (hmh : mh ≠ [])
    (hs : isValidAddress msg.sender = true)
    (hr : isValidAddress msg.recipient = true)
    (hself : asciiLower msg.sender ≠ asciiLower msg.recipient)
    (ham : isValidAmount msg.amount = true) :
    respCode (submitTransaction ext st ⟨some msg, some sig, some mh⟩).1 ≠
      some .INVALID_AMOUNT := by
  by_cases hn : msg.nonce = objGetD st.nonces msg.sender + 1
  case neg =>
    rw [submit_bad_nonce ext st msg sig mh hsig hmh hs hr hself ham hn]
    simp [respCode]
  by_cases hhash : bytesToHex (ext.kec (ext.encodeMessage msg)) = mh
  case neg =>
    rw [submit_bad_hash ext st msg sig mh hsig hmh hs hr hself ham hn hhash]
    simp [respCode]
  cases hcv : verifySignatureAndGetAddress ext mh sig with
  | error e =>
    rw [submit_recovery_error ext st msg sig mh e hsig hmh hs hr hself ham hn hhash hcv]
    simp [respCode]
  | ok addr =>
  by_cases haddr : asciiLower addr = asciiLower msg.sender
  case neg =>
    rw [submit_addr_mismatch ext st msg sig mh addr hsig hmh hs hr hself ham hn hhash hcv haddr]
    simp [respCode]
  by_cases hfunds : objGetD st.balances msg.sender < msg.amount
  case pos =>
    rw [submit_no_funds ext st msg sig mh addr hsig hmh hs hr hself ham hn hhash hcv haddr hfunds]
    simp [respCode]
  rw [submit_all_pass ext st msg sig mh addr hsig hmh hs hr hself ham hn hhash hcv haddr hfunds]
  simp [respCode]

theorem code_not_nonce (ext : Ext) (st : ServerState)
    (msg : TransactionMessage) (sig mh : JStr)
    (hsig : sig ≠ []) (hmh : mh ≠ [])
    (hs : isValidAddress msg.sender = true)
    (hr : isValidAddress msg.recipient = true)
    (hself : asciiLower msg.sender ≠ asciiLower msg.recipient)
    (ham : isValidAmount msg.amount = true)
    (hn : msg.nonce = objGetD st.nonces msg.sender + 1) :
    respCode (submitTransaction ext st ⟨some msg, some sig, some mh⟩).1 ≠
      some .INVALID_NONCE := by
  by_cases hhash : bytesToHex (ext.kec (ext.encodeMessage msg)) = mh
  case neg =>
    rw [submit_bad_hash ext st msg sig mh hsig hmh hs hr hself ham hn hhash]
    simp [respCode]
  cases hcv : verifySignatureAndGetAddress ext mh sig with
  | error e =>
    rw [submit_recovery_error ext st msg sig mh e hsig hmh hs hr hself ham hn hhash hcv]
    simp [respCode]
  | ok addr =>
  by_cases haddr : asciiLower addr = asciiLower msg.sender
  case neg =>
    rw [submit_addr_mismatch ext st msg sig mh addr hsig hmh hs hr hself ham hn hhash hcv haddr]
    simp [respCode]
  by_cases hfunds : objGetD st.balances msg.sender < msg.amount
  case pos =>
    rw [submit_no_funds ext st msg sig mh addr hsig hmh hs hr hself ham hn hhash hcv haddr hfunds]
    simp [respCode]
  rw [submit_all_pass ext st msg sig mh addr hsig hmh hs hr hself ham hn hhash hcv haddr hfunds]
  simp [respCode]


/-! ## Claim theorems -/

/-- C1 (amended): a rejected transaction always leaves `nonces` unchanged
and leaves every balance lookup (absent key read as 0) unchanged; for
every error code other than `INSUFFICIENT_FUNDS` the state is identical.
An `INSUFFICIENT_FUNDS` rejection may additionally materialise
zero-valued `balances` entries for the sender and the recipient, because
`setInitialBalance` runs before the funds check. -/
theorem rejected_submit_state_effects (ext : Ext) (st : ServerState) (body : SendRequestBody)
    (e : ErrorResponse) (st' : ServerState)
    (h : submitTransaction ext st body = (.error e, st')) :
    st'.nonces = st.nonces ∧
    (∀ a : JStr, objGetD st'.balances a = objGetD st.balances a) ∧
    (e.code ≠ .INSUFFICIENT_FUNDS → st' = st) ∧
    (e.code = .INSUFFICIENT_FUNDS → ∃ msg : TransactionMessage,
      body.message = some msg ∧
      st' = ⟨setInitialBalance (setInitialBalance st.balances msg.sender) msg.recipient,
             st.nonces⟩) := by
  obtain ⟨om, os, omh⟩ := body
  by_cases hpres : om = Option.none ∨ os = Option.none ∨ omh = Option.none ∨
      os = some [] ∨ omh = some []
  · rw [submit_missing ext st ⟨om, os, omh⟩ (by simpa using hpres)] at h
    simp only [Prod.mk.injEq, Except.error.injEq] at h
    obtain ⟨he, hst⟩ := h
    subst hst
    subst he
    exact ⟨rfl, fun a => rfl, fun _ => rfl, fun hc => by simp [missingFieldsResponse] at hc⟩
  · push_neg at hpres
    obtain ⟨hom, hos, homh, hos2, homh2⟩ := hpres
    obtain ⟨msg, rfl⟩ := Option.ne_none_iff_exists'.mp hom
    obtain ⟨sig, rfl⟩ := Option.ne_none_iff_exists'.mp hos
    obtain ⟨mh, rfl⟩ := Option.ne_none_iff_exists'.mp homh
    have hsig : sig ≠ [] := fun hc => hos2 (by rw [hc])
    have hmh : mh ≠ [] := fun hc => homh2 (by rw [hc])
    by_cases hs : isValidAddress msg.sender = true
    case neg =>
      rw [submit_bad_sender ext st msg sig mh hsig hmh (by simpa using hs)] at h
      simp only [Prod.mk.injEq, Except.error.injEq] at h
      obtain ⟨he, hst⟩ := h
      subst hst
      subst he
      exact ⟨rfl, fun a => rfl, fun _ => rfl, fun hc => by simp at hc⟩
    by_cases hr : isValidAddress msg.recipient = true
    case neg =>
      rw [submit_bad_recipient ext st msg sig mh hsig hmh hs (by simpa using hr)] at h
      simp only [Prod.mk.injEq, Except.error.injEq] at h
      obtain ⟨he, hst⟩ := h
      subst hst
      subst he
      exact ⟨rfl, fun a => rfl, fun _ => rfl, fun hc => by simp at hc⟩
    by_cases hself : asciiLower msg.sender = asciiLower msg.recipient
    case pos =>
      rw [submit_self ext st msg sig mh hsig hmh hs hr hself] at h
      simp only [Prod.mk.injEq, Except.error.injEq] at h
      obtain ⟨he, hst⟩ := h
      subst hst
      subst he
      exact ⟨rfl, fun a => rfl, fun _ => rfl, fun hc => by simp at hc⟩
    by_cases ham : isValidAmount msg.amount = true
    case neg =>
      rw [submit_bad_amount ext st msg sig mh hsig hmh hs hr hself (by simpa using ham)] at h
      simp only [Prod.mk.injEq, Except.error.injEq] at h
      obtain ⟨he, hst⟩ := h
      subst hst
      subst he
      exact ⟨rfl, fun a => rfl, fun _ => rfl, fun hc => by simp at hc⟩
    by_cases hn : msg.nonce = objGetD st.nonces msg.sender + 1
    case neg =>
      rw [submit_bad_nonce ext st msg sig mh hsig hmh hs hr hself ham hn] at h
      simp only [Prod.mk.injEq, Except.error.injEq] at h
      obtain ⟨he, hst⟩ := h
      subst hst
      subst he
      exact ⟨rfl, fun a => rfl, fun _ => rfl, fun hc => by simp at hc⟩
    by_cases hhash : bytesToHex (ext.kec (ext.encodeMessage msg)) = mh
    case neg =>
      rw [submit_bad_hash ext st msg sig mh hsig hmh hs hr hself ham hn hhash] at h
      simp only [Prod.mk.injEq, Except.error.injEq] at h
      obtain ⟨he, hst⟩ := h
      subst hst
      subst he
      exact ⟨rfl, fun a => rfl, fun _ => rfl, fun hc => by simp at hc⟩
    cases hcv : verifySignatureAndGetAddress ext mh sig with
    | error re =>
      rw [submit_recovery_error ext st msg sig mh re hsig hmh hs hr hself ham hn hhash hcv] at h
      simp only [Prod.mk.injEq, Except.error.injEq] at h
      obtain ⟨he, hst⟩ := h
      subst hst
      subst he
      exact ⟨rfl, fun a => rfl, fun _ => rfl, fun hc => by simp at hc⟩
    | ok addr =>
    by_cases haddr : asciiLower addr = asciiLower msg.sender
    case neg =>
      rw [submit_addr_mismatch ext st msg sig mh addr hsig hmh hs hr hself ham hn hhash hcv
        haddr] at h
      simp only [Prod.mk.injEq, Except.error.injEq] at h
      obtain ⟨he, hst⟩ := h
      subst hst
      subst he
      exact ⟨rfl, fun a => rfl, fun _ => rfl, fun hc => by simp at hc⟩
    by_cases hfunds : objGetD st.balances msg.sender < msg.amount
    case pos =>
      rw [submit_no_funds ext st msg sig mh addr hsig hmh hs hr hself ham hn hhash hcv haddr
        hfunds] at h
      simp only [Prod.mk.injEq, Except.error.injEq] at h
      obtain ⟨he, hst⟩ := h
      subst he
      refine ⟨by rw [← hst], fun a => by rw [← hst]; simp [objGetD_setInitialBalance], ?_, ?_⟩
      · intro hc
        simp at hc
      · intro _
        exact ⟨msg, rfl, hst.symm⟩
    case neg =>
      rw [submit_all_pass ext st msg sig mh addr hsig hmh hs hr hself ham hn hhash hcv haddr
        hfunds] at h
      simp at h

/-- C2: given a request that reaches the nonce check, the pipeline
reports `INVALID_NONCE` exactly when the submitted nonce differs from
the stored nonce (0 for an unseen sender) plus one, carrying
`{ expected, received }` details; and a transaction committed with nonce
`n` fails on identical resubmission with `INVALID_NONCE`,
`expected = n + 1`, `received = n`. -/
theorem nonce_check_and_replay (ext : Ext) (st : ServerState)
    (msg : TransactionMessage) (sig mh : JStr)
    (hsig : sig ≠ []) (hmh : mh ≠ [])
    (hs : isValidAddress msg.sender = true)
    (hr : isValidAddress msg.recipient = true)
    (hself : asciiLower msg.sender ≠ asciiLower msg.recipient)
    (ham : isValidAmount msg.amount = true) :
    (respCode (submitTransaction ext st ⟨some msg, some sig, some mh⟩).1 =
        some .INVALID_NONCE ↔ msg.nonce ≠ objGetD st.nonces msg.sender + 1)
    ∧ (msg.nonce ≠ objGetD st.nonces msg.sender + 1 →
        submitTransaction ext st ⟨some msg, some sig, some mh⟩ =
          (.error ⟨400, .INVALID_NONCE,
            .expectedReceivedNonce (objGetD st.nonces msg.sender + 1) msg.nonce⟩, st))
    ∧ (∀ (r : SuccessResponse) (st' : ServerState),
        submitTransaction ext st ⟨some msg, some sig, some mh⟩ = (.ok r, st') →
        submitTransaction ext st' ⟨some msg, some sig, some mh⟩ =
          (.error ⟨400, .INVALID_NONCE,
            .expectedReceivedNonce (msg.nonce + 1) msg.nonce⟩, st')) := by
  refine ⟨⟨?_, ?_⟩, ?_, ?_⟩
  · intro hcode
    by_contra hn
    exact code_not_nonce ext st msg sig mh hsig hmh hs hr hself ham hn hcode
  · intro hn
    rw [submit_bad_nonce ext st msg sig mh hsig hmh hs hr hself ham hn]
    simp [respCode]
  · exact submit_bad_nonce ext st msg sig mh hsig hmh hs hr hself ham
  · intro r st' h
    obtain ⟨msg', sig', mh', addr, hbody, hsig', hmh', hs', hr', hself', ham', hn', hhash',
      hv', haddr', hfunds', hresp, hst⟩ := submit_ok_inv ext st _ r st' h
    simp only [SendRequestBody.mk.injEq, Option.some.injEq] at hbody
    obtain ⟨e1, e2, e3⟩ := hbody
    subst e1
    subst e2
    subst e3
    subst hst
    have hnn : msg.nonce ≠
        objGetD (ServerState.nonces ⟨objSet (objSet (setInitialBalance
            (setInitialBalance st.balances msg.sender) msg.recipient)
            msg.sender (objGetD st.balances msg.sender - msg.amount))
          msg.recipient (objGetD st.balances msg.recipient + msg.amount),
          objSet st.nonces msg.sender msg.nonce⟩) msg.sender + 1 := by
      simp [objGetD_objSet_self]
    have hb := submit_bad_nonce ext _ msg sig mh hsig hmh hs hr hself ham hnn
    simpa [objGetD_objSet_self] using hb


/-- C3: the pipeline evaluates its checks in the fixed order — field
presence, sender address, recipient address, self-transfer, amount,
nonce, hash integrity, signature authenticity, funds — and returns the
code of the first violated rule with no later check influencing the
outcome (all later request components are universally quantified in
each conjunct, so a malformed sender is reported as `INVALID_ADDRESS`
whatever the rest of the request contains). -/
theorem pipeline_fail_fast_order (ext : Ext) (st : ServerState) (body : SendRequestBody)
    (msg : TransactionMessage) (sig mh : JStr) :
    (body.message = Option.none ∨ body.signature = Option.none ∨
        body.messageHash = Option.none ∨ body.signature = some [] ∨
        body.messageHash = some [] →
      submitTransaction ext st body = (.error missingFieldsResponse, st))
    ∧ (sig ≠ [] → mh ≠ [] → isValidAddress msg.sender = false →
      submitTransaction ext st ⟨some msg, some sig, some mh⟩ =
        (.error ⟨400, .INVALID_ADDRESS, .none⟩, st))
    ∧ (sig ≠ [] → mh ≠ [] → isValidAddress msg.sender = true →
        isValidAddress msg.recipient = false →
      submitTransaction ext st ⟨some msg, some sig, some mh⟩ =
        (.error ⟨400, .INVALID_ADDRESS, .none⟩, st))
    ∧ (sig ≠ [] → mh ≠ [] → isValidAddress msg.sender = true →
        isValidAddress msg.recipient = true →
        asciiLower msg.sender = asciiLower msg.recipient →
      submitTransaction ext st ⟨some msg, some sig, some mh⟩ =
        (.error ⟨400, .SELF_TRANSFER, .none⟩, st))
    ∧ (sig ≠ [] → mh ≠ [] → isValidAddress msg.sender = true →
        isValidAddress msg.recipient = true →
        asciiLower msg.sender ≠ asciiLower msg.recipient →
        isValidAmount msg.amount = false →
      submitTransaction ext st ⟨some msg, some sig, some mh⟩ =
        (.error ⟨400, .INVALID_AMOUNT, .none⟩, st))
    ∧ (sig ≠ [] → mh ≠ [] → isValidAddress msg.sender = true →
        isValidAddress msg.recipient = true →
        asciiLower msg.sender ≠ asciiLower msg.recipient →
        isValidAmount msg.amount = true →
        msg.nonce ≠ objGetD st.nonces msg.sender + 1 →
      submitTransaction ext st ⟨some msg, some sig, some mh⟩ =
        (.error ⟨400, .INVALID_NONCE,
          .expectedReceivedNonce (objGetD st.nonces msg.sender + 1) msg.nonce⟩, st))
    ∧ (sig ≠ [] → mh ≠ [] → isValidAddress msg.sender = true →
        isValidAddress msg.recipient = true →
        asciiLower msg.sender ≠ asciiLower msg.recipient →
        isValidAmount msg.amount = true →
        msg.nonce = objGetD st.nonces msg.sender + 1 →
        bytesToHex (ext.kec (ext.encodeMessage msg)) ≠ mh →
      submitTransaction ext st ⟨some msg, some sig, some mh⟩ =
        (.error ⟨400, .INVALID_HASH, .none⟩, st))
    ∧ (sig ≠ [] → mh ≠ [] → isValidAddress msg.sender = true →
        isValidAddress msg.recipient = true →
        asciiLower msg.sender ≠ asciiLower msg.recipient →
        isValidAmount msg.amount = true →
        msg.nonce = objGetD st.nonces msg.sender + 1 →
        bytesToHex (ext.kec (ext.encodeMessage msg)) = mh →
        ∀ addr : JStr, verifySignatureAndGetAddress ext mh sig = .ok addr →
          asciiLower addr ≠ asciiLower msg.sender →
          submitTransaction ext st ⟨some msg, some sig, some mh⟩ =
            (.error ⟨401, .INVALID_SIGNATURE, .expectedRecovered msg.sender addr⟩, st))
    ∧ (sig ≠ [] → mh ≠ [] → isValidAddress msg.sender = true →
        isValidAddress msg.recipient = true →
        asciiLower msg.sender ≠ asciiLower msg.recipient →
        isValidAmount msg.amount = true →
        msg.nonce = objGetD st.nonces msg.sender + 1 →
        bytesToHex (ext.kec (ext.encodeMessage msg)) = mh →
        ∀ addr : JStr, verifySignatureAndGetAddress ext mh sig = .ok addr →
          asciiLower addr = asciiLower msg.sender →
          objGetD st.balances msg.sender < msg.amount →
          submitTransaction ext st ⟨some msg, some sig, some mh⟩ =
            (.error ⟨400, .INSUFFICIENT_FUNDS,
              .requiredAvailable msg.amount (objGetD st.balances msg.sender)⟩,
             ⟨setInitialBalance (setInitialBalance st.balances msg.sender) msg.recipient,
              st.nonces⟩)) :=
  ⟨submit_missing ext st body,
   fun hsig hmh hs => submit_bad_sender ext st msg sig mh hsig hmh hs,
   fun hsig hmh hs hr => submit_bad_recipient ext st msg sig mh hsig hmh hs hr,
   fun hsig hmh hs hr hself => submit_self ext st msg sig mh hsig hmh hs hr hself,
   fun hsig hmh hs hr hself ham => submit_bad_amount ext st msg sig mh hsig hmh hs hr hself ham,
   fun hsig hmh hs hr hself ham hn =>
     submit_bad_nonce ext st msg sig mh hsig hmh hs hr hself ham hn,
   fun hsig hmh hs hr hself ham hn hhash =>
     submit_bad_hash ext st msg sig mh hsig hmh hs hr hself ham hn hhash,
   fun hsig hmh hs hr hself ham hn hhash addr hv haddr =>
     submit_addr_mismatch ext st msg sig mh addr hsig hmh hs hr hself ham hn hhash hv haddr,
   fun hsig hmh hs hr hself ham hn hhash addr hv haddr hfunds =>
     submit_no_funds ext st msg sig mh addr hsig hmh hs hr hself ham hn hhash hv haddr hfunds⟩

/-- C4 (amended): a request missing `message`, `signature` or
`messageHash` (absent or empty-string, both falsy) is rejected before
any other check runs, but with `ErrorCode.INVALID_SIGNATURE` (status
400) — the server's `ErrorCode` enum has no distinct missing-fields
member. -/
theorem missing_fields_rejected_as_invalid_signature (ext : Ext) (st : ServerState)
    (body : SendRequestBody)
    (h : body.message = Option.none ∨ body.signature = Option.none ∨
      body.messageHash = Option.none ∨ body.signature = some [] ∨
      body.messageHash = some []) :
    submitTransaction ext st body = (.error ⟨400, .INVALID_SIGNATURE, .none⟩, st) :=
  submit_missing ext st body h

/-- C5 (amended): when the request reaches the signature step, a
signature-recovery failure (wrong length, undecodable hex, or a library
recovery failure) is thrown, caught by the handler's `try/catch`, and
surfaced as `INTERNAL_ERROR` with HTTP status 500; only a successful
recovery whose derived address mismatches the claimed sender yields
`INVALID_SIGNATURE` (status 401). -/
theorem recovery_failure_internal_error (ext : Ext) (st : ServerState)
    (msg : TransactionMessage) (sig mh : JStr)
    (hsig : sig ≠ []) (hmh : mh ≠ [])
    (hs : isValidAddress msg.sender = true)
    (hr : isValidAddress msg.recipient = true)
    (hself : asciiLower msg.sender ≠ asciiLower msg.recipient)
    (ham : isValidAmount msg.amount = true)
    (hn : msg.nonce = objGetD st.nonces msg.sender + 1)
    (hhash : bytesToHex (ext.kec (ext.encodeMessage msg)) = mh) :
    (∀ e : RecoveryErr, verifySignatureAndGetAddress ext mh sig = .error e →
       submitTransaction ext st ⟨some msg, some sig, some mh⟩ =
         (.error ⟨500, .INTERNAL_ERROR, .caughtError e⟩, st))
    ∧ (∀ addr : JStr, verifySignatureAndGetAddress ext mh sig = .ok addr →
       asciiLower addr ≠ asciiLower msg.sender →
       submitTransaction ext st ⟨some msg, some sig, some mh⟩ =
         (.error ⟨401, .INVALID_SIGNATURE, .expectedRecovered msg.sender addr⟩, st)) :=
  ⟨fun e hv => submit_recovery_error ext st msg sig mh e hsig hmh hs hr hself ham hn hhash hv,
   fun addr hv haddr =>
     submit_addr_mismatch ext st msg sig mh addr hsig hmh hs hr hself ham hn hhash hv haddr⟩


/-- C6: every successful commit moves exactly the validated amount:
the sender's stored balance decreases by `amount`, the recipient's
increases by `amount`, and their sum is conserved. -/
theorem commit_conserves_funds (ext : Ext) (st : ServerState) (body : SendRequestBody)
    (r : SuccessResponse) (st' : ServerState) (msg : TransactionMessage)
    (h : submitTransaction ext st body = (.ok r, st'))
    (hmsg : body.message = some msg) :
    objGetD st'.balances msg.sender = objGetD st.balances msg.sender - msg.amount ∧
    objGetD st'.balances msg.recipient = objGetD st.balances msg.recipient + msg.amount ∧
    objGetD st'.balances msg.sender + objGetD st'.balances msg.recipient =
      objGetD st.balances msg.sender + objGetD st.balances msg.recipient := by
  obtain ⟨msg', sig', mh', addr, hbody, hsig', hmh', hs', hr', hself', ham', hn', hhash',
    hv', haddr', hfunds', hresp, hst⟩ := submit_ok_inv ext st body r st' h
  rw [hbody] at hmsg
  simp only [Option.some.injEq] at hmsg
  subst msg
  have hner := fun e => hself' (congrArg asciiLower e)
  subst hst
  refine ⟨?_, ?_, ?_⟩
  · simp only [objGetD_objSet_ne _ _ _ _ hner, objGetD_objSet_self]
  · simp only [objGetD_objSet_self, objGetD_objSet_ne _ _ _ _ (Ne.symm hner),
      objGetD_setInitialBalance]
  · simp only [objGetD_objSet_ne _ _ _ _ hner, objGetD_objSet_self,
      objGetD_objSet_ne _ _ _ _ (Ne.symm hner), objGetD_setInitialBalance]
    ring

/-- C7: the amount check accepts exactly the integer-valued amounts `a`
with `0 < a ≤ 1,000,000`; any other amount reaching the check is
rejected with `INVALID_AMOUNT` whatever the rest of the request (in
particular `1000001` always, while `1000000` can never produce
`INVALID_AMOUNT`). -/
theorem amount_check_characterisation (ext : Ext) (st : ServerState)
    (msg : TransactionMessage) (sig mh : JStr)
    (hsig : sig ≠ []) (hmh : mh ≠ [])
    (hs : isValidAddress msg.sender = true)
    (hr : isValidAddress msg.recipient = true)
    (hself : asciiLower msg.sender ≠ asciiLower msg.recipient) :
    (isValidAmount msg.amount = true ↔
      ∃ n : ℤ, msg.amount = (n : ℚ) ∧ 0 < msg.amount ∧ msg.amount ≤ 1000000)
    ∧ (isValidAmount msg.amount = false →
        submitTransaction ext st ⟨some msg, some sig, some mh⟩ =
          (.error ⟨400, .INVALID_AMOUNT, .none⟩, st))
    ∧ (msg.amount = 1000001 →
        submitTransaction ext st ⟨some msg, some sig, some mh⟩ =
          (.error ⟨400, .INVALID_AMOUNT, .none⟩, st))
    ∧ (msg.amount = 1000000 →
        respCode (submitTransaction ext st ⟨some msg, some sig, some mh⟩).1 ≠
          some .INVALID_AMOUNT)
    ∧ isValidAmount 1000000 = true ∧ isValidAmount 1000001 = false := by
  refine ⟨?_, ?_, ?_, ?_, by decide, by decide⟩
  · unfold isValidAmount
    simp only [Bool.and_eq_true, decide_eq_true_eq, beq_iff_eq]
    constructor
    · rintro ⟨⟨hden, hpos⟩, hle⟩
      exact ⟨msg.amount.num, (Rat.coe_int_num_of_den_eq_one hden).symm, hpos, hle⟩
    · rintro ⟨n, hn, hpos, hle⟩
      refine ⟨⟨?_, hpos⟩, hle⟩
      rw [hn]
      exact Rat.intCast_den n
  · exact fun ham => submit_bad_amount ext st msg sig mh hsig hmh hs hr hself ham
  · intro hq
    refine submit_bad_amount ext st msg sig mh hsig hmh hs hr hself ?_
    rw [hq]
    decide
  · intro hq
    refine code_not_amount ext st msg sig mh hsig hmh hs hr hself ?_
    rw [hq]
    decide

/-- C8: `publicKeyToAddress` agrees with the specification's recipe
(drop the 1-byte prefix, hash the remaining 64 bytes, keep the last
20 digest bytes, lowercase hex with a `0x` prefix) on 65-byte keys;
and `isValidAddress` accepts exactly `0x` followed by 40 hex digits of
either case. -/
theorem address_codec_spec (ext : Ext) (pk : List Nat) (s : JStr) :
    (pk.length = 65 → publicKeyToAddress ext pk = toAddressSpec ext.kec pk)
    ∧ (isValidAddress s = true ↔
        ∃ t : JStr, s = '0' :: 'x' :: t ∧ t.length = 40 ∧ t.all isHexChar = true) := by
  constructor
  · intro hlen
    unfold publicKeyToAddress toAddressSpec lastBytes
    have h1 : jsSliceFrom pk 1 = List.drop 1 pk := by
      simp [jsSliceFrom]
    have h2 : List.take 64 (List.drop 1 pk) = List.drop 1 pk := by
      apply List.take_of_length_le
      simp [hlen]
    have h3 : ∀ l : List Nat, jsSliceFrom l (-20) = l.drop (l.length - 20) := by
      intro l
      simp [jsSliceFrom]
    rw [h1, h2, h3]
  · unfold isValidAddress
    split
    · next clean =>
      simp only [Bool.and_eq_true, beq_iff_eq, List.cons.injEq, true_and]
      constructor
      · rintro ⟨hlen, hall⟩
        exact ⟨clean, rfl, hlen, hall⟩
      · rintro ⟨t, ht, hlen, hall⟩
        cases ht
        exact ⟨hlen, hall⟩
    · next hno =>
      simp only [Bool.false_eq_true, false_iff]
      rintro ⟨t, ht, hlen, hall⟩
      exact hno t ht

/-- C9 (amended): a fully valid submission returns a success payload
whose `balance` field (the sender's new balance — the wire key is
`balance`, not `senderBalance`) is the old balance minus the amount,
whose `newNonce` is the submitted nonce and whose `recipient.newBalance`
is the recipient's old balance plus the amount; the serialised object
has a `balance` key and no `senderBalance` key. -/
theorem success_response_contents (ext : Ext) (st : ServerState)
    (msg : TransactionMessage) (sig mh addr : JStr)
    (hsig : sig ≠ []) (hmh : mh ≠ [])
    (hs : isValidAddress msg.sender = true)
    (hr : isValidAddress msg.recipient = true)
    (hself : asciiLower msg.sender ≠ asciiLower msg.recipient)
    (ham : isValidAmount msg.amount = true)
    (hn : msg.nonce = objGetD st.nonces msg.sender + 1)
    (hhash : bytesToHex (ext.kec (ext.encodeMessage msg)) = mh)
    (hv : verifySignatureAndGetAddress ext mh sig = .ok addr)
    (haddr : asciiLower addr = asciiLower msg.sender)
    (hfunds : msg.amount ≤ objGetD st.balances msg.sender) :
    ∃ r : SuccessResponse,
      (submitTransaction ext st ⟨some msg, some sig, some mh⟩).1 = .ok r ∧
      r.balance = objGetD st.balances msg.sender - msg.amount ∧
      r.newNonce = msg.nonce ∧
      r.recipientAddress = msg.recipient ∧
      r.recipientNewBalance = objGetD st.balances msg.recipient + msg.amount ∧
      jLookup (successJson r) "balance" =
        some (.num (objGetD st.balances msg.sender - msg.amount)) ∧
      jLookup (successJson r) "newNonce" = some (.num msg.nonce) ∧
      jLookup (successJson r) "senderBalance" = Option.none := by
  refine ⟨⟨objGetD st.balances msg.sender - msg.amount, msg.nonce, msg.recipient,
    objGetD st.balances msg.recipient + msg.amount⟩, ?_, rfl, rfl, rfl, rfl, rfl, rfl, rfl⟩
  rw [submit_all_pass ext st msg sig mh addr hsig hmh hs hr hself ham hn hhash hv haddr
    (not_lt.mpr hfunds)]

/-- C10: the digest the hash check compares against is always rendered
in lowercase hex, and the comparison is exact string equality: any
`messageHash` that denotes the same bytes (up to letter case and an
optional `0x` prefix) but differs as a string is rejected with
`INVALID_HASH`. -/
theorem hash_check_case_sensitivity (ext : Ext) (st : ServerState)
    (msg : TransactionMessage) (sig mh : JStr)
    (hsig : sig ≠ []) (hmh : mh ≠ [])
    (hs : isValidAddress msg.sender = true)
    (hr : isValidAddress msg.recipient = true)
    (hself : asciiLower msg.sender ≠ asciiLower msg.recipient)
    (ham : isValidAmount msg.amount = true)
    (hn : msg.nonce = objGetD st.nonces msg.sender + 1) :
    ((bytesToHex (ext.kec (ext.encodeMessage msg))).all isLowerHexChar = true)
    ∧ (asciiLower (stripHexPfx mh) = bytesToHex (ext.kec (ext.encodeMessage msg)) →
       mh ≠ bytesToHex (ext.kec (ext.encodeMessage msg)) →
       submitTransaction ext st ⟨some msg, some sig, some mh⟩ =
         (.error ⟨400, .INVALID_HASH, .none⟩, st)) :=
  ⟨bytesToHex_all_lower _,
   fun _ hne => submit_bad_hash ext st msg sig mh hsig hmh hs hr hself ham hn
     (fun he => hne he.symm)⟩


/-! ## Concrete counterexamples and witnesses -/

section ConcreteRuns

attribute [local semireducible] Rat.add Rat.sub Rat.mul Rat.inv

/-- C1 counterexample: a transaction rejected with `INSUFFICIENT_FUNDS`
from an empty ledger leaves the `balances` mapping with two new
zero-valued entries — the mapping is not byte-for-byte unchanged. -/
theorem insufficient_funds_rejection_adds_zero_entries :
    submitTransaction extC stEmpty bodyFresh =
      (.error ⟨400, .INSUFFICIENT_FUNDS, .requiredAvailable 1 0⟩,
       ⟨[(senderA, 0), (recipB, 0)], []⟩) ∧
    ([(senderA, (0 : ℚ)), (recipB, 0)] : List (JStr × ℚ)) ≠ stEmpty.balances := by
  exact ⟨by decide, by decide⟩

/-- C1 witness: the amended statement applied to the concrete rejected
run above. -/
theorem rejected_submit_state_effects_witness :
    (⟨[(senderA, 0), (recipB, 0)], []⟩ : ServerState).nonces = stEmpty.nonces ∧
    objGetD (⟨[(senderA, 0), (recipB, 0)], []⟩ : ServerState).balances senderA =
      objGetD stEmpty.balances senderA :=
  ⟨(rejected_submit_state_effects extC stEmpty bodyFresh
      ⟨400, .INSUFFICIENT_FUNDS, .requiredAvailable 1 0⟩
      ⟨[(senderA, 0), (recipB, 0)], []⟩ (by decide)).1,
   (rejected_submit_state_effects extC stEmpty bodyFresh
      ⟨400, .INSUFFICIENT_FUNDS, .requiredAvailable 1 0⟩
      ⟨[(senderA, 0), (recipB, 0)], []⟩ (by decide)).2.1 senderA⟩

/-- C2 witness: scenario B — after committing the scenario-A transfer
(nonce 1), resubmitting the identical signed payload fails with
`INVALID_NONCE`, `expected 2`, `received 1`. -/
theorem nonce_check_and_replay_witness :
    submitTransaction extC stScenA' bodyScenA =
      (.error ⟨400, .INVALID_NONCE, .expectedReceivedNonce 2 1⟩, stScenA') := by
  have h2 : (2 : ℚ) = 1 + 1 := by norm_num
  rw [h2]
  exact (nonce_check_and_replay extC stScenA
    { sender := senderA, recipient := recipB, amount := 30, nonce := 1 } sigC mhC
    (by decide) (by decide) (by decide) (by decide) (by decide) (by decide)).2.2
    ⟨70, 1, recipB, 80⟩ stScenA' (by decide)

/-- C3 witness: a request whose sender address is malformed and whose
recipient, amount, nonce, signature and hash are all also invalid is
reported as `INVALID_ADDRESS` — the first violated rule wins. -/
theorem pipeline_fail_fast_order_witness :
    submitTransaction extC stEmpty
      ⟨some { sender := ['z'], recipient := ['z'], amount := 0, nonce := 5 },
       some ['a'], some ['b']⟩ =
      (.error ⟨400, .INVALID_ADDRESS, .none⟩, stEmpty) :=
  (pipeline_fail_fast_order extC stEmpty
    ⟨some { sender := ['z'], recipient := ['z'], amount := 0, nonce := 5 },
     some ['a'], some ['b']⟩
    { sender := ['z'], recipient := ['z'], amount := 0, nonce := 5 }
    ['a'] ['b']).2.1 (by decide) (by decide) (by decide)

/-- C4 counterexample: a request with no `message` field is rejected
with `ErrorCode.INVALID_SIGNATURE`, not a dedicated missing-fields
code (the `ErrorCode` enum has none). -/
theorem missing_fields_code_counterexample :
    (submitTransaction extC stEmpty
      ⟨Option.none, some sigC, some mhC⟩).1 =
      .error ⟨400, .INVALID_SIGNATURE, .none⟩ := by
  decide

/-- C4 witness: the amended statement applied to a concrete
missing-`message` request. -/
theorem missing_fields_rejected_witness :
    submitTransaction extC stEmpty bodyNoMessage =
      (.error ⟨400, .INVALID_SIGNATURE, .none⟩, stEmpty) :=
  missing_fields_rejected_as_invalid_signature extC stEmpty bodyNoMessage (Or.inl rfl)

/-- C5 counterexample: a 1-byte signature fails the repository's own
65-byte length check, which throws; the response is `INTERNAL_ERROR`
with HTTP status 500, not `INVALID_SIGNATURE`. -/
theorem recovery_failure_counterexample :
    submitTransaction extC stEmpty bodyShortSig =
      (.error ⟨500, .INTERNAL_ERROR, .caughtError (.invalidLength 1)⟩, stEmpty) ∧
    ErrorCode.INTERNAL_ERROR ≠ ErrorCode.INVALID_SIGNATURE := by
  exact ⟨by decide, by decide⟩

/-- C5 witness: the amended statement applied to the short-signature
request. -/
theorem recovery_failure_internal_error_witness :
    submitTransaction extC stEmpty bodyShortSig =
      (.error ⟨500, .INTERNAL_ERROR, .caughtError (.invalidLength 1)⟩, stEmpty) :=
  (recovery_failure_internal_error extC stEmpty
    { sender := senderA, recipient := recipB, amount := 1, nonce := 1 } ['a', 'b'] mhC
    (by decide) (by decide) (by decide) (by decide) (by decide) (by decide) (by decide)
    (by decide)).1 (.invalidLength 1) (by decide)

/-- C6 witness: conservation on the concrete scenario-A commit. -/
theorem commit_conserves_funds_witness :
    objGetD stScenA'.balances senderA = objGetD stScenA.balances senderA - 30 ∧
    objGetD stScenA'.balances recipB = objGetD stScenA.balances recipB + 30 ∧
    objGetD stScenA'.balances senderA + objGetD stScenA'.balances recipB =
      objGetD stScenA.balances senderA + objGetD stScenA.balances recipB :=
  commit_conserves_funds extC stScenA bodyScenA ⟨70, 1, recipB, 80⟩ stScenA'
    { sender := senderA, recipient := recipB, amount := 30, nonce := 1 } (by decide) rfl

/-- C7 witness: scenario E — `amount = 1000001` is rejected with
`INVALID_AMOUNT` even though the signature is junk. -/
theorem amount_check_characterisation_witness :
    submitTransaction extC stEmpty
      ⟨some { sender := senderA, recipient := recipB, amount := 1000001, nonce := 1 },
       some ['a'], some ['b']⟩ =
      (.error ⟨400, .INVALID_AMOUNT, .none⟩, stEmpty) :=
  (amount_check_characterisation extC stEmpty
    { sender := senderA, recipient := recipB, amount := 1000001, nonce := 1 } ['a'] ['b']
    (by decide) (by decide) (by decide) (by decide) (by decide)).2.2.1 rfl

/-- C8 witness: the two halves of the address-codec claim applied to a
concrete 65-byte key and the concrete address `0xaaa…a`. -/
theorem address_codec_spec_witness :
    publicKeyToAddress extC (List.replicate 65 4) =
      toAddressSpec extC.kec (List.replicate 65 4) ∧
    isValidAddress senderA = true :=
  ⟨(address_codec_spec extC (List.replicate 65 4) senderA).1 (by decide),
   (address_codec_spec extC (List.replicate 65 4) senderA).2.mpr
     ⟨List.replicate 40 'a', rfl, by decide, by decide⟩⟩

/-- C9 counterexample: the concrete scenario-A success response carries
the sender's new balance 70 under the key `balance`; there is no
`senderBalance` key. -/
theorem success_response_key_counterexample :
    (submitTransaction extC stScenA bodyScenA).1 = .ok ⟨70, 1, recipB, 80⟩ ∧
    jLookup (successJson ⟨70, 1, recipB, 80⟩) "senderBalance" = Option.none ∧
    jLookup (successJson ⟨70, 1, recipB, 80⟩) "balance" = some (.num 70) :=
  ⟨by decide, rfl, rfl⟩

/-- C9 witness: the amended statement applied to scenario A. -/
theorem success_response_contents_witness :
    (submitTransaction extC stScenA bodyScenA).1 = .ok ⟨70, 1, recipB, 80⟩ := by
  obtain ⟨r, h1, h2, h3, h4, h5, -, -, -⟩ := success_response_contents extC stScenA
    { sender := senderA, recipient := recipB, amount := 30, nonce := 1 } sigC mhC senderA
    (by decide) (by decide) (by decide) (by decide) (by decide) (by decide) (by decide)
    (by decide) (by decide) rfl (by decide)
  unfold bodyScenA
  rw [h1]
  obtain ⟨rb, rn, ra, rrb⟩ := r
  subst h2
  subst h3
  subst h4
  subst h5
  decide

/-- C10 witness: the uppercase rendering of the correct digest is
rejected with `INVALID_HASH` even though it denotes the same bytes. -/
theorem hash_check_case_sensitivity_witness :
    submitTransaction extC stEmpty bodyUpperHash =
      (.error ⟨400, .INVALID_HASH, .none⟩, stEmpty) :=
  (hash_check_case_sensitivity extC stEmpty
    { sender := senderA, recipient := recipB, amount := 1, nonce := 1 } sigC
    (List.replicate 64 'A')
    (by decide) (by decide) (by decide) (by decide) (by decide) (by decide)
    (by decide)).2 (by decide) (by decide)

end ConcreteRuns

end EcdsaNode
